import Mathlib

/-!
Verification development for the strengths-analysis service (`api.py`,
`models.py`, `crew.py`).  The Python runtime values that can reach the
output extractor are shallowly embedded as `PyVal`; the extractor
`extract_strengths_from_output`, the fallback provider
`get_fallback_strengths`, and the orchestration loop `run_analysis`
(retry with backoff, aggregation into the five named result fields, and
the sequence of job-record writes) are translated function by function
from the source.  The two regular expressions and the `json.loads`
calls used by extraction strategies 4 and 6 are compiled by hand into
executable search functions with Python's leftmost / lazy semantics.
-/

namespace BoardPanel

/-- Embedding of `models.AgentStrengthOutput`: the typed structure the LLM is asked to
produce.  The pydantic `min_length=3, max_length=5` constraint on
`strengths` is enforced by `AgentStrengthOutput.model_validate_json`
below (it holds at validation time, not of the bare record). -/
structure AgentStrengthOutput where
  agent_name : String
  strengths : List String
deriving DecidableEq

/-- Shallow embedding of the Python runtime values a task output (or a
value stored inside one) can take: an `AgentStrengthOutput` instance, an
arbitrary object exposing a `.pydantic` attribute (with its `str()`
rendering recorded, since such objects print however their class
decides), a dict with string keys, a str, a list, an int, a bool, a
float (kept as its JSON lexeme; never produced outside strategy-4
parses), or `None`. -/
inductive PyVal where
  | model (m : AgentStrengthOutput)
  | withPydanticAttr (pydantic : PyVal) (render : String)
  | pydict (entries : List (String × PyVal))
  | pystr (s : String)
  | pylist (items : List PyVal)
  | pyint (n : Int)
  | pybool (b : Bool)
  | pyfloat (lexeme : String)
  | pynone

/-- Python `key in d` / `d[key]` on a dict (keys are unique in a dict,
so first match is the match). -/
def dictLookup (entries : List (String × PyVal)) (key : String) : Option PyVal :=
  match entries with
  | [] => none
  | (k, v) :: rest => if k = key then some v else dictLookup rest key

/-- Whether `sub` occurs as a contiguous run inside `s` (Python `sub in s`). -/
def listHasRun (sub : List Char) : List Char → Bool
  | [] => decide (sub = [])
  | c :: rest => sub.isPrefixOf (c :: rest) || listHasRun sub rest

/-- Python `sub in s` on strings. -/
def strContains (s sub : String) : Bool :=
  listHasRun sub.toList s.toList

/-- Python `str.lower()` (ASCII; the classifier only compares ASCII
tokens).  Structural, unlike `String.toLower`, so proofs can evaluate it. -/
def lowerAscii (s : String) : String :=
  String.mk (s.toList.map Char.toLower)

/-- The rate-limit classifier from `run_analysis` (api.py line 185):
`"rate_limit" in error_msg.lower() or "429" in error_msg`. -/
def is_rate_limited (error_msg : String) : Bool :=
  strContains (lowerAscii error_msg) "rate_limit" || strContains error_msg "429"

/-- Source `get_fallback_strengths` (api.py lines 122-156): canned 3-sentence
lists for stage indices 0-4, and a generic list for any other index. -/
def get_fallback_strengths : Nat → List String
  | 0 =>
    [ "The company has established multiple marketing channels for user acquisition.",
      "Customer acquisition metrics indicate efficient marketing spend.",
      "Retention strategy demonstrates commitment to user engagement and growth." ]
  | 1 =>
    [ "The technology stack is built on modern, scalable frameworks.",
      "Product features effectively address core user needs.",
      "Technical architecture supports future growth and expansion." ]
  | 2 =>
    [ "Team structure aligns with current business priorities.",
      "Leadership roles are clearly defined with appropriate expertise.",
      "Hiring plan strategically addresses critical gaps in team capabilities." ]
  | 3 =>
    [ "The company has established clear market positioning.",
      "Unique value proposition provides differentiation from competitors.",
      "Pricing strategy aligns with market expectations and value delivery." ]
  | 4 =>
    [ "Monthly burn rate is managed within acceptable range for the company stage.",
      "Current revenue demonstrates market traction and validation.",
      "Funding status provides adequate runway for growth initiatives." ]
  | _ =>
    [ "Analysis completed successfully.",
      "Detailed insights available upon review.",
      "Please contact support for additional information." ]

/-- The fallback list as the Python list-of-str value the extractor returns. -/
def fallbackPy (task_index : Nat) : PyVal :=
  .pylist ((get_fallback_strengths task_index).map .pystr)

/-! ### JSON values and `json.loads` -/

/-- A parsed JSON value.  Numbers keep their source lexeme (they are
only ever passed through, never computed with). -/
inductive JVal where
  | jnull
  | jbool (b : Bool)
  | jnum (lexeme : String)
  | jstr (s : String)
  | jarr (items : List JVal)
  | jobj (fields : List (String × JVal))

/-- JSON insignificant whitespace. -/
def isJsonWs (c : Char) : Bool :=
  c = ' ' || c = '\t' || c = '\n' || c = '\r'

def dropJsonWs (cs : List Char) : List Char :=
  cs.dropWhile isJsonWs

def hexDigitVal (c : Char) : Option Nat :=
  if '0' ≤ c ∧ c ≤ '9' then some (c.toNat - '0'.toNat)
  else if 'a' ≤ c ∧ c ≤ 'f' then some (c.toNat - 'a'.toNat + 10)
  else if 'A' ≤ c ∧ c ≤ 'F' then some (c.toNat - 'A'.toNat + 10)
  else none

/-- Body of a JSON string literal, after the opening quote.  Strict mode
(as in `json.loads`): raw control characters below 0x20 are rejected;
the short escapes and `\uXXXX` are decoded. -/
def jsonStringBody (acc : List Char) : List Char → Option (String × List Char)
  | [] => none
  | '"' :: rest => some (String.mk acc.reverse, rest)
  | '\\' :: 'u' :: h1 :: h2 :: h3 :: h4 :: rest =>
    match hexDigitVal h1, hexDigitVal h2, hexDigitVal h3, hexDigitVal h4 with
    | some a, some b, some c, some d =>
      let n := ((a * 16 + b) * 16 + c) * 16 + d
      jsonStringBody (Char.ofNat n :: acc) rest
    | _, _, _, _ => none
  | '\\' :: e :: rest =>
    (match e with
     | '"' => some '"'
     | '\\' => some '\\'
     | '/' => some '/'
     | 'b' => some (Char.ofNat 8)
     | 'f' => some (Char.ofNat 12)
     | 'n' => some '\n'
     | 'r' => some '\r'
     | 't' => some '\t'
     | _ => none).bind fun ch => jsonStringBody (ch :: acc) rest
  | c :: rest =>
    if c.toNat < 32 then none else jsonStringBody (c :: acc) rest

def spanDigits (cs : List Char) : List Char × List Char :=
  (cs.takeWhile Char.isDigit, cs.dropWhile Char.isDigit)

/-- Optional fraction and exponent after the integer part of a JSON
number.  Like the tokenizing regex, this never fails: it consumes
`\.[0-9]+` and `[eE][+-]?[0-9]+` only when fully present. -/
def jsonNumberTail (cs : List Char) : List Char × List Char :=
  let (frac, cs1) : List Char × List Char := match cs with
    | '.' :: r =>
      let (ds, r2) := spanDigits r
      if ds.isEmpty then ([], cs) else ('.' :: ds, r2)
    | _ => ([], cs)
  match cs1 with
  | e :: r =>
    if e = 'e' ∨ e = 'E' then
      let (sgn, r1) : List Char × List Char := match r with
        | '+' :: r2 => (['+'], r2)
        | '-' :: r2 => (['-'], r2)
        | _ => ([], r)
      let (ds, r2) := spanDigits r1
      if ds.isEmpty then (frac, cs1) else (frac ++ e :: sgn ++ ds, r2)
    else (frac, cs1)
  | [] => (frac, cs1)

/-- A JSON number token: `-?(0|[1-9][0-9]*)(\.[0-9]+)?([eE][+-]?[0-9]+)?`.
Returns the lexeme and the rest. -/
def jsonNumberToken (cs : List Char) : Option (List Char × List Char) :=
  let (sign, cs1) : List Char × List Char := match cs with
    | '-' :: r => (['-'], r)
    | _ => ([], cs)
  match cs1 with
  | '0' :: r1 =>
    let (tl, rest) := jsonNumberTail r1
    some (sign ++ '0' :: tl, rest)
  | c :: r1 =>
    if c.isDigit then
      let (ds, r2) := spanDigits r1
      let (tl, rest) := jsonNumberTail r2
      some (sign ++ c :: ds ++ tl, rest)
    else none
  | [] => none

mutual

/-- One JSON value (leading whitespace already consumed by the caller).
`json.loads` defaults also accept `NaN`, `Infinity` and `-Infinity`. -/
def parseJVal (fuel : Nat) (cs : List Char) : Option (JVal × List Char) :=
  match fuel with
  | 0 => none
  | fuel + 1 =>
    match cs with
    | 'n' :: 'u' :: 'l' :: 'l' :: r => some (.jnull, r)
    | 't' :: 'r' :: 'u' :: 'e' :: r => some (.jbool true, r)
    | 'f' :: 'a' :: 'l' :: 's' :: 'e' :: r => some (.jbool false, r)
    | 'N' :: 'a' :: 'N' :: r => some (.jnum "NaN", r)
    | 'I' :: 'n' :: 'f' :: 'i' :: 'n' :: 'i' :: 't' :: 'y' :: r => some (.jnum "Infinity", r)
    | '-' :: 'I' :: 'n' :: 'f' :: 'i' :: 'n' :: 'i' :: 't' :: 'y' :: r =>
      some (.jnum "-Infinity", r)
    | '"' :: r => (jsonStringBody [] r).map fun (s, rest) => (.jstr s, rest)
    | '[' :: r =>
      (match dropJsonWs r with
       | ']' :: r2 => some (.jarr [], r2)
       | r2 => (parseJItems fuel r2).map fun (items, rest) => (.jarr items, rest))
    | '{' :: r =>
      (match dropJsonWs r with
       | '}' :: r2 => some (.jobj [], r2)
       | r2 => (parseJFields fuel r2).map fun (fields, rest) => (.jobj fields, rest))
    | c :: _ =>
      if c = '-' ∨ c.isDigit then
        (jsonNumberToken cs).map fun (lex, rest) => (.jnum (String.mk lex), rest)
      else none
    | [] => none

/-- One-or-more comma-separated array items, through the closing `]`. -/
def parseJItems (fuel : Nat) (cs : List Char) : Option (List JVal × List Char) :=
  match fuel with
  | 0 => none
  | fuel + 1 =>
    match parseJVal fuel cs with
    | none => none
    | some (v, rest) =>
      match dropJsonWs rest with
      | ',' :: r2 =>
        (parseJItems fuel (dropJsonWs r2)).map fun (vs, r3) => (v :: vs, r3)
      | ']' :: r2 => some ([v], r2)
      | _ => none

/-- Parse one-or-more object members, through the closing brace. -/
def parseJFields (fuel : Nat) (cs : List Char) : Option (List (String × JVal) × List Char) :=
  match fuel with
  | 0 => none
  | fuel + 1 =>
    match cs with
    | '"' :: r =>
      match jsonStringBody [] r with
      | none => none
      | some (key, r1) =>
        match dropJsonWs r1 with
        | ':' :: r2 =>
          match parseJVal fuel (dropJsonWs r2) with
          | none => none
          | some (v, r3) =>
            match dropJsonWs r3 with
            | ',' :: r4 =>
              (parseJFields fuel (dropJsonWs r4)).map fun (fs, r5) => ((key, v) :: fs, r5)
            | '}' :: r4 => some ([(key, v)], r4)
            | _ => none
        | _ => none
    | _ => none

end

/-- Model of `json.loads`: parse the whole string as one JSON document (with
surrounding whitespace); trailing data is an error. -/
def json_loads (s : String) : Option JVal :=
  let cs := s.toList
  match parseJVal (cs.length + 1) (dropJsonWs cs) with
  | some (v, rest) => if dropJsonWs rest = [] then some v else none
  | none => none

/-- Insert-or-overwrite for building a Python dict from JSON members:
a duplicate key keeps its first position but takes the later value. -/
def upsertEntry (entries : List (String × PyVal)) (k : String) (v : PyVal) :
    List (String × PyVal) :=
  match entries with
  | [] => [(k, v)]
  | (k0, v0) :: rest =>
    if k0 = k then (k0, v) :: rest else (k0, v0) :: upsertEntry rest k v

def dedupEntries (es : List (String × PyVal)) : List (String × PyVal) :=
  es.foldl (fun acc kv => upsertEntry acc kv.1 kv.2) []

/-- A number lexeme that Python decodes as an `int` (no `.`, exponent,
`NaN` or `Infinity`). -/
def jLexIsInt (lex : String) : Bool :=
  match lex.toList with
  | '-' :: rest => !rest.isEmpty && rest.all Char.isDigit
  | l => !l.isEmpty && l.all Char.isDigit

def digitsVal (l : List Char) : Nat :=
  l.foldl (fun a c => a * 10 + (c.toNat - '0'.toNat)) 0

def jLexToInt (lex : String) : Int :=
  match lex.toList with
  | '-' :: rest => -(digitsVal rest : Int)
  | l => (digitsVal l : Int)

mutual

/-- The Python value `json.loads` builds from a parsed JSON document. -/
def jsonToPy : JVal → PyVal
  | .jnull => .pynone
  | .jbool b => .pybool b
  | .jnum lex => if jLexIsInt lex then .pyint (jLexToInt lex) else .pyfloat lex
  | .jstr s => .pystr s
  | .jarr items => .pylist (jsonToPyItems items)
  | .jobj fields => .pydict (dedupEntries (jsonToPyFields fields))

def jsonToPyItems : List JVal → List PyVal
  | [] => []
  | v :: rest => jsonToPy v :: jsonToPyItems rest

def jsonToPyFields : List (String × JVal) → List (String × PyVal)
  | [] => []
  | (k, v) :: rest => (k, jsonToPy v) :: jsonToPyFields rest

end

/-! ### Python `str()` / `repr()` rendering

Strategies 4-6 operate on `str(task_output)`, so the embedding carries
Python's rendering of each value shape: a str renders as itself, dicts
and lists render via `repr` of their parts, a pydantic model instance
renders as its space-separated field reprs, and an arbitrary
`.pydantic`-attribute object renders as its recorded string. -/

def hexDigitChar (n : Nat) : Char :=
  if n < 10 then Char.ofNat ('0'.toNat + n) else Char.ofNat ('a'.toNat + n - 10)

/-- One character inside a Python string repr quoted with `q`. -/
def pyEscapeChar (q c : Char) : String :=
  if c = '\\' then "\\\\"
  else if c = q then String.mk ['\\', q]
  else if c = '\n' then "\\n"
  else if c = '\r' then "\\r"
  else if c = '\t' then "\\t"
  else if c.toNat < 32 ∨ c.toNat = 127 then
    String.mk ['\\', 'x', hexDigitChar (c.toNat / 16), hexDigitChar (c.toNat % 16)]
  else String.singleton c

/-- Python `repr` of a str: single-quoted unless the string contains a
single quote and no double quote. -/
def pyReprStr (s : String) : String :=
  let q : Char :=
    if s.toList.contains '\'' && !(s.toList.contains '"') then '"' else '\''
  String.singleton q ++ String.join (s.toList.map (pyEscapeChar q)) ++ String.singleton q

/-- Python `repr` of a list of strs (used for the model's field). -/
def pyReprStrList (l : List String) : String :=
  "[" ++ String.intercalate ", " (l.map pyReprStr) ++ "]"

mutual

/-- Python `repr`. -/
def pyRepr : PyVal → String
  | .model m =>
    "AgentStrengthOutput(agent_name=" ++ pyReprStr m.agent_name ++
      ", strengths=" ++ pyReprStrList m.strengths ++ ")"
  | .withPydanticAttr _ render => render
  | .pydict entries => "\x7b" ++ pyReprEntries entries ++ "\x7d"
  | .pystr s => pyReprStr s
  | .pylist items => "[" ++ pyReprItems items ++ "]"
  | .pyint n => toString n
  | .pybool b => if b then "True" else "False"
  | .pyfloat lexeme => lexeme
  | .pynone => "None"

def pyReprItems : List PyVal → String
  | [] => ""
  | [v] => pyRepr v
  | v :: rest => pyRepr v ++ ", " ++ pyReprItems rest

def pyReprEntries : List (String × PyVal) → String
  | [] => ""
  | [(k, v)] => pyReprStr k ++ ": " ++ pyRepr v
  | (k, v) :: rest => pyReprStr k ++ ": " ++ pyRepr v ++ ", " ++ pyReprEntries rest

end

/-- Python `str()`.  Differs from `repr` on strs (rendered bare) and on
pydantic model instances (pydantic v2 prints `field=repr` pairs). -/
def pyToStr : PyVal → String
  | .model m =>
    "agent_name=" ++ pyReprStr m.agent_name ++ " strengths=" ++ pyReprStrList m.strengths
  | .pystr s => s
  | v => pyRepr v

/-! ### The two extraction regexes, compiled by hand

Strategy 4 searches `output_str` for
`\x7b[^\x7b\x7d]*?"strengths"[^\x7b\x7d]*?\[[^\]]*?\][^\x7b\x7d]*?\x7d`
and strategy 6 for `"strengths"\s*:\s*\[(.*?)\]` (both `re.DOTALL`),
then collects `"([^"]{15,})"` with `re.findall`.  `re.search` takes the
leftmost starting position admitting a match; a lazy run takes the
shortest length whose continuation succeeds. -/

def isBraceChar (c : Char) : Bool := c = '{' || c = '}'

/-- All remainders after `[^F]*?lit`, shortest run first (the order a
lazy quantifier tries continuations in). -/
def lazyRuns (forb : Char → Bool) (lit : List Char) : List Char → List (List Char)
  | [] => if lit.isEmpty then [[]] else []
  | c :: rest =>
    (if lit.isPrefixOf (c :: rest) then [(c :: rest).drop lit.length] else []) ++
    (if forb c then [] else lazyRuns forb lit rest)

def strengthsLit : List Char := "\"strengths\"".toList

/-- Match the strategy-4 pattern right after an opening brace; returns
how many characters the match consumes past that brace. -/
def matchR4Tail (s : List Char) : Option Nat :=
  (lazyRuns isBraceChar strengthsLit s).findSome? fun r1 =>
    (lazyRuns isBraceChar ['['] r1).findSome? fun r2 =>
      (lazyRuns (fun c => c = ']') [']'] r2).findSome? fun r3 =>
        match lazyRuns isBraceChar ['}'] r3 with
        | r4 :: _ => some (s.length - r4.length)
        | [] => none

def searchR4Aux : List Char → Option (List Char)
  | [] => none
  | c :: rest =>
    if c = '{' then
      match matchR4Tail rest with
      | some n => some (c :: rest.take n)
      | none => searchR4Aux rest
    else searchR4Aux rest

/-- Leftmost `re.search` for the strategy-4 pattern: the matched substring. -/
def searchR4 (s : String) : Option String :=
  (searchR4Aux s.toList).map String.mk

/-- Whitespace class of Python's `re` module (ASCII part). -/
def isReWs (c : Char) : Bool :=
  c = ' ' || c = '\t' || c = '\n' || c = '\r' || c = '\x0b' || c = '\x0c'

/-- Continuation of the strategy-6 pattern after the `"strengths"`
literal: `\s*:\s*\[`, then the lazy group runs to the first `]`. -/
def matchR6Tail (s : List Char) : Option (List Char) :=
  match s.dropWhile isReWs with
  | ':' :: s2 =>
    (match s2.dropWhile isReWs with
     | '[' :: s4 =>
       if s4.contains ']' then some (s4.takeWhile (fun c => c ≠ ']')) else none
     | _ => none)
  | _ => none

/-- Leftmost `re.search` for the strategy-6 pattern: group 1 of the first match. -/
def searchR6Aux : List Char → Option (List Char)
  | [] => none
  | c :: rest =>
    if strengthsLit.isPrefixOf (c :: rest) then
      match matchR6Tail ((c :: rest).drop strengthsLit.length) with
      | some g => some g
      | none => searchR6Aux rest
    else searchR6Aux rest

/-- Model of `re.findall` for the quoted-run pattern: scan left to right; at a quote,
the following quote-free run matches only when it is 15+ characters
long and closed by another quote; a failed attempt resumes at that
closing quote.  Each recursive call drops at least one character, so
`length + 1` fuel is exact. -/
def findallQuotedAux (fuel : Nat) (s : List Char) : List String :=
  match fuel with
  | 0 => []
  | fuel + 1 =>
    match s with
    | [] => []
    | c :: rest =>
      if c = '"' then
        let run := rest.takeWhile (fun x => x ≠ '"')
        let after := rest.drop run.length
        match after with
        | [] => []
        | _ :: after2 =>
          if run.length ≥ 15 then String.mk run :: findallQuotedAux fuel after2
          else findallQuotedAux fuel after
      else findallQuotedAux fuel rest

def findallQuoted (s : List Char) : List String :=
  findallQuotedAux (s.length + 1) s

/-- Test `output_str.strip().startswith` of an opening brace (strategy 4's
entry test).  Python `str.strip()` whitespace, ASCII part. -/
def isPyStripWs (c : Char) : Bool :=
  c = ' ' || c = '\t' || c = '\n' || c = '\r' || c = '\x0b' || c = '\x0c'

def strippedStartsWithBrace (s : String) : Bool :=
  match s.toList.dropWhile isPyStripWs with
  | c :: _ => c = '{'
  | [] => false

/-! ### The output extractor (api.py lines 50-119)

`extract_strengths_from_output` is translated with the source's control
flow: strategies 1-3 probe the value's shape directly; strategies 4-6
work on `str(task_output)`.  A `json.loads` failure inside strategy 4
is an exception that the function-level `except` turns into the
fallback (strategies 5-6 are not reached); a failed
`model_validate_json` in strategy 5 is caught by the inner
`try/except pass` and falls through to strategy 6. -/

/-- Pydantic `AgentStrengthOutput.model_validate_json`: parse the whole string as
JSON and validate the schema — `agent_name` a string, `strengths` an
array of 3-5 strings (pydantic v2 does not coerce non-strings). -/
def AgentStrengthOutput.model_validate_json (s : String) : Option AgentStrengthOutput :=
  match json_loads s with
  | some (.jobj fields) =>
    (match jFieldLast fields "agent_name", jFieldLast fields "strengths" with
     | some (.jstr name), some (.jarr items) =>
       (match allJStrings items with
        | some strs =>
          if 3 ≤ strs.length ∧ strs.length ≤ 5 then
            some { agent_name := name, strengths := strs }
          else none
        | none => none)
     | _, _ => none)
  | _ => none
where
  /-- Last binding of a key among parsed JSON members (later duplicates
  shadow earlier ones). -/
  jFieldLast (fields : List (String × JVal)) (key : String) : Option JVal :=
    match fields with
    | [] => none
    | (k, v) :: rest =>
      match jFieldLast rest key with
      | some w => some w
      | none => if k = key then some v else none
  /-- All items are JSON strings. -/
  allJStrings : List JVal → Option (List String)
    | [] => some []
    | .jstr s :: rest => (allJStrings rest).map (s :: ·)
    | _ => none

/-- Strategies 5, 6 and the final fallback, on the rendered string. -/
def extract_after_strategy4 (output_str : String) (task_index : Nat) : PyVal :=
  match AgentStrengthOutput.model_validate_json output_str with
  | some parsed => .pylist (parsed.strengths.map .pystr)
  | none =>
    match searchR6Aux output_str.toList with
    | some inner =>
      let strength_items := findallQuoted inner
      if strength_items.length ≥ 3 then .pylist ((strength_items.take 5).map .pystr)
      else fallbackPy task_index
    | none => fallbackPy task_index

/-- Strategy 4 and everything after it, on the rendered string. -/
def extract_from_string (output_str : String) (task_index : Nat) : PyVal :=
  if strippedStartsWithBrace output_str then
    match searchR4 output_str with
    | some json_str =>
      (match json_loads json_str with
       | some data =>
         (match jsonToPy data with
          | .pydict entries =>
            (match dictLookup entries "strengths" with
             | some v => v
             | none => extract_after_strategy4 output_str task_index)
          | _ => extract_after_strategy4 output_str task_index)
       | none => fallbackPy task_index)
    | none => extract_after_strategy4 output_str task_index
  else extract_after_strategy4 output_str task_index

/-- Source `extract_strengths_from_output` (api.py lines 50-119). -/
def extract_strengths_from_output (task_output : PyVal) (task_index : Nat) : PyVal :=
  match task_output with
  | .model m => .pylist (m.strengths.map .pystr)
  | .withPydanticAttr p _ =>
    (match p with
     | .model m => .pylist (m.strengths.map .pystr)
     | .pydict entries =>
       (match dictLookup entries "strengths" with
        | some v => v
        | none => extract_from_string (pyToStr task_output) task_index)
     | _ => extract_from_string (pyToStr task_output) task_index)
  | .pydict entries =>
    (match dictLookup entries "strengths" with
     | some v => v
     | none =>
       match dictLookup entries "pydantic" with
       | some (.pydict inner) =>
         (match dictLookup inner "strengths" with
          | some v => v
          | none => extract_from_string (pyToStr task_output) task_index)
       | _ => extract_from_string (pyToStr task_output) task_index)
  | _ => extract_from_string (pyToStr task_output) task_index

/-! ### The spec's strategy decomposition

The spec describes the extractor as six ordered strategy functions.
These definitions follow that description; the refinement theorems
below relate them to `extract_strengths_from_output` as translated from
the source. -/

/-- Strategy 1 (typed object). -/
def strategy1 (task_output : PyVal) : Option PyVal :=
  match task_output with
  | .model m => some (.pylist (m.strengths.map .pystr))
  | _ => none

/-- Strategy 2 (nested payload under a `.pydantic` attribute). -/
def strategy2 (task_output : PyVal) : Option PyVal :=
  match task_output with
  | .withPydanticAttr p _ =>
    (match p with
     | .model m => some (.pylist (m.strengths.map .pystr))
     | .pydict entries => dictLookup entries "strengths"
     | _ => none)
  | _ => none

/-- Strategy 3 (generic mapping). -/
def strategy3 (task_output : PyVal) : Option PyVal :=
  match task_output with
  | .pydict entries =>
    (match dictLookup entries "strengths" with
     | some v => some v
     | none =>
       match dictLookup entries "pydantic" with
       | some (.pydict inner) => dictLookup inner "strengths"
       | _ => none)
  | _ => none

/-- Outcome of strategy 4: a returned value, a raised `json.loads`
exception, or not-applicable. -/
inductive Strategy4Outcome where
  | ret (v : PyVal)
  | exn
  | cont

/-- Strategy 4 (embedded JSON object in the rendered string). -/
def strategy4 (output_str : String) : Strategy4Outcome :=
  if strippedStartsWithBrace output_str then
    match searchR4 output_str with
    | some json_str =>
      (match json_loads json_str with
       | some data =>
         (match jsonToPy data with
          | .pydict entries =>
            (match dictLookup entries "strengths" with
             | some v => .ret v
             | none => .cont)
          | _ => .cont)
       | none => .exn)
    | none => .cont
  else .cont

/-- Strategy 5 (strict schema validation of the whole rendered string). -/
def strategy5 (output_str : String) : Option (List String) :=
  (AgentStrengthOutput.model_validate_json output_str).map (fun m => m.strengths)

/-- Strategy 6 (regex extraction of quoted 15+ character runs). -/
def strategy6 (output_str : String) : Option (List String) :=
  match searchR6Aux output_str.toList with
  | some inner =>
    let strength_items := findallQuoted inner
    if strength_items.length ≥ 3 then some (strength_items.take 5) else none
  | none => none

/-- The result of the first strategy that returns, in the fixed order
1-6; `none` when every strategy falls through or when a strategy-4
parse exception short-circuits to the fallback. -/
def strategyResult (task_output : PyVal) : Option PyVal :=
  match strategy1 task_output with
  | some v => some v
  | none =>
    match strategy2 task_output with
    | some v => some v
    | none =>
      match strategy3 task_output with
      | some v => some v
      | none =>
        let output_str := pyToStr task_output
        match strategy4 output_str with
        | .ret v => some v
        | .exn => none
        | .cont =>
          match strategy5 output_str with
          | some items => some (.pylist (items.map .pystr))
          | none =>
            match strategy6 output_str with
            | some items => some (.pylist (items.map .pystr))
            | none => none

/-! ### The orchestration loop (api.py lines 159-254)

`run_analysis` is modelled on its observable state: the sequence of
job-record states after each individual store write (one Python dict
assignment each), the sleeps performed by the retry loop, and the
aggregation of the five named result fields.  The crew kickoff is the
external completion call; its behaviour per attempt is an input. -/

/-- Python truthiness (`if strengths`, `if not crew_result`). -/
def pyTruthy : PyVal → Bool
  | .model _ => true
  | .withPydanticAttr _ _ => true
  | .pydict entries => !entries.isEmpty
  | .pystr s => !(s = "")
  | .pylist items => !items.isEmpty
  | .pyint n => !(n = 0)
  | .pybool b => b
  | .pyfloat lexeme => !jLexIsZeroFloat lexeme
  | .pynone => false
where
  /-- A float lexeme denoting 0.0 (every mantissa digit is zero). -/
  jLexIsZeroFloat (lexeme : String) : Bool :=
    let mant := lexeme.toList.takeWhile (fun c => c ≠ 'e' ∧ c ≠ 'E')
    mant.any Char.isDigit && mant.all (fun c => !c.isDigit || c = '0')

/-- Python `len()`; `none` when the value has no `__len__` (the call
raises `TypeError`). -/
def pyLen : PyVal → Option Nat
  | .pydict entries => some entries.length
  | .pystr s => some s.length
  | .pylist items => some items.length
  | _ => none

/-- The `results` dict: exactly the five named fields of the final
result, initialised to empty lists (api.py lines 201-207). -/
structure AnalysisResults where
  marketing_strengths : PyVal
  tech_strengths : PyVal
  org_hr_strengths : PyVal
  competitive_strengths : PyVal
  finance_strengths : PyVal

def results_init : AnalysisResults :=
  { marketing_strengths := .pylist []
    tech_strengths := .pylist []
    org_hr_strengths := .pylist []
    competitive_strengths := .pylist []
    finance_strengths := .pylist [] }

/-- Source `task_result_mapping` (api.py lines 209-215). -/
def task_result_mapping : List String :=
  [ "marketing_strengths", "tech_strengths", "org_hr_strengths",
    "competitive_strengths", "finance_strengths" ]

/-- Assignment `results[task_result_mapping[idx]] = v`. -/
def assignField (r : AnalysisResults) (idx : Nat) (v : PyVal) : AnalysisResults :=
  match idx with
  | 0 => { r with marketing_strengths := v }
  | 1 => { r with tech_strengths := v }
  | 2 => { r with org_hr_strengths := v }
  | 3 => { r with competitive_strengths := v }
  | 4 => { r with finance_strengths := v }
  | _ => r

/-- Read the field for a stage index (a view for stating properties). -/
def resField (r : AnalysisResults) : Nat → PyVal
  | 0 => r.marketing_strengths
  | 1 => r.tech_strengths
  | 2 => r.org_hr_strengths
  | 3 => r.competitive_strengths
  | 4 => r.finance_strengths
  | _ => .pynone

/-- The per-task loop of `run_analysis` (api.py lines 218-236): breaks
past index 4, keeps an extraction only when it is truthy with
`len >= 3`, substitutes the fallback otherwise; `len()` on a truthy
unsized value raises, failing the whole job. -/
def processTasksAux (r : AnalysisResults) (idx : Nat) :
    List PyVal → Except String AnalysisResults
  | [] => .ok r
  | task_output :: rest =>
    if idx ≥ task_result_mapping.length then .ok r
    else
      let strengths := extract_strengths_from_output task_output idx
      if pyTruthy strengths then
        match pyLen strengths with
        | some n =>
          if n ≥ 3 then processTasksAux (assignField r idx strengths) (idx + 1) rest
          else processTasksAux (assignField r idx (fallbackPy idx)) (idx + 1) rest
        | none => .error "object has no len()"
      else processTasksAux (assignField r idx (fallbackPy idx)) (idx + 1) rest

def processTasks (tasks_output : List PyVal) : Except String AnalysisResults :=
  processTasksAux results_init 0 tasks_output

/-- The object `kickoff` returns: its `tasks_output` attribute when it
has one (the code substitutes `[]` otherwise). -/
structure CrewResultObj where
  tasks_output : Option (List PyVal)

/-- What one kickoff attempt does: return a value (`none` models a
falsy return, caught by the `if not crew_result` guard) or raise with
a message. -/
inductive AttemptOutcome where
  | ok (res : Option CrewResultObj)
  | err (msg : String)

/-- One job record of the in-memory store (`analysis_results[id]`). -/
structure JobRecord where
  status : String
  progress : String
  result : Option AnalysisResults
  error : Option String
  completed_at : Bool

/-- The record as created by `POST /api/analyze` (api.py lines 271-277). -/
def initialRecord : JobRecord :=
  { status := "queued", progress := "Queued for processing",
    result := none, error := none, completed_at := false }

def max_retries : Nat := 3

/-- The retry loop (api.py lines 171-188), threading the trace of
record states, the current record, and the list of performed sleep
durations.  `fuel` only enables the recursion; the loop's own bound is
the `attempt < max_retries - 1` test, exactly as in the source. -/
def retryWrites (outcomes : Nat → AttemptOutcome) :
    Nat → Nat → List JobRecord → JobRecord → List Nat →
    List JobRecord × JobRecord × List Nat × Except String (Option CrewResultObj)
  | 0, _, t, r, sleeps => (t, r, sleeps, .error "")
  | fuel + 1, attempt, t, r, sleeps =>
    let step1 : List JobRecord × JobRecord × List Nat :=
      if attempt > 0 then
        let delay := 15 * 2 ^ attempt
        let rA := { r with progress := "Rate limit hit, waiting " ++ toString delay ++ "s..." }
        (t ++ [rA], rA, sleeps ++ [delay])
      else (t, r, sleeps)
    let t1 := step1.1
    let r1 := step1.2.1
    let sleeps1 := step1.2.2
    let r2 := { r1 with progress := "Running agents (5 agents, ~1 min total)..." }
    let t2 := t1 ++ [r2]
    match outcomes attempt with
    | .ok res => (t2, r2, sleeps1, .ok res)
    | .err msg =>
      if is_rate_limited msg && attempt < max_retries - 1 then
        retryWrites outcomes fuel (attempt + 1) t2 r2 sleeps1
      else (t2, r2, sleeps1, .error msg)

/-- The three writes of the `except` handler (api.py lines 252-254). -/
def failWrites (t : List JobRecord) (r : JobRecord) (msg : String) :
    List JobRecord × JobRecord :=
  let r1 := { r with status := "failed" }
  let r2 := { r1 with error := some msg }
  let r3 := { r2 with progress := "Analysis failed" }
  (((t ++ [r1]) ++ [r2]) ++ [r3], r3)

/-- Continuation of `run_analysis` after the retry loop returns
(api.py lines 190-254): the falsy-result guard, the aggregation of the
task outputs, and the terminal record writes. -/
def run_analysis_post (t3 : List JobRecord) (r3 : JobRecord) (sleeps : List Nat)
    (e : Except String (Option CrewResultObj)) : List JobRecord × List Nat :=
  match e with
  | .error msg => ((failWrites t3 r3 msg).1, sleeps)
  | .ok res =>
    match res with
    | none => ((failWrites t3 r3 "No result from crew execution").1, sleeps)
    | some crew =>
      let tasks_output := match crew.tasks_output with
        | some l => l
        | none => []
      match processTasks tasks_output with
      | .error msg => ((failWrites t3 r3 msg).1, sleeps)
      | .ok results =>
        let r4 := { r3 with status := "completed" }
        let r5 := { r4 with result := some results }
        let r6 := { r5 with completed_at := true }
        let r7 := { r6 with progress := "Analysis complete!" }
        ((((t3 ++ [r4]) ++ [r5]) ++ [r6]) ++ [r7], sleeps)

/-- Source `run_analysis` (api.py lines 159-254): returns the full trace of
record states (starting from the record `analyze` created) and the
sleeps performed. -/
def run_analysis (outcomes : Nat → AttemptOutcome) : List JobRecord × List Nat :=
  let r0 := initialRecord
  let t0 : List JobRecord := [r0]
  let r1 := { r0 with status := "processing" }
  let t1 := t0 ++ [r1]
  let r2 := { r1 with progress := "Starting analysis..." }
  let t2 := t1 ++ [r2]
  match retryWrites outcomes max_retries 0 t2 r2 [] with
  | (t3, r3, sleeps, e) => run_analysis_post t3 r3 sleeps e

/-- The record the store holds once `run_analysis` has finished. -/
def finalRecord (outcomes : Nat → AttemptOutcome) : Option JobRecord :=
  (run_analysis outcomes).1.getLast?

/-- The keep-or-substitute test of the orchestrator's second check
(api.py line 229), as a single boolean: truthy and `len(...) >= 3`. -/
def keepExtraction (v : PyVal) : Bool :=
  pyTruthy v &&
    (match pyLen v with
     | some n => decide (3 ≤ n)
     | none => false)

/-- The extractor returned a value read verbatim out of the raw input:
a `strengths` member of a `.pydantic` dict, of the dict itself, of a
nested `pydantic` dict, or of a strategy-4 parsed JSON object. -/
def storedPassthrough (task_output v : PyVal) : Prop :=
  (∃ entries render, task_output = .withPydanticAttr (.pydict entries) render ∧
      dictLookup entries "strengths" = some v) ∨
  (∃ entries, task_output = .pydict entries ∧
      (dictLookup entries "strengths" = some v ∨
       (dictLookup entries "strengths" = none ∧
        ∃ inner, dictLookup entries "pydantic" = some (.pydict inner) ∧
          dictLookup inner "strengths" = some v))) ∨
  strategy4 (pyToStr task_output) = .ret v

/-! ### Concrete scenario inputs used by counterexamples and witnesses -/

/-- Kickoff raises a rate-limited error on every attempt. -/
def allRateLimited : Nat → AttemptOutcome :=
  fun _ => .err "429 Too Many Requests (rate_limit)"

/-- Kickoff succeeds immediately with an empty `tasks_output`. -/
def emptyTasksRun : Nat → AttemptOutcome :=
  fun _ => .ok (some { tasks_output := some [] })

/-- Raw text that starts with a brace, matches the strategy-4 regex,
but is not valid JSON, while holding three quoted 20-character items. -/
def s4exnText : String :=
  "\x7boops, \"strengths\": [\"aaaaaaaaaaaaaaaaaaaa\", \"bbbbbbbbbbbbbbbbbbbb\", \"cccccccccccccccccccc\"]\x7d"

/-- A brace-delimited object with a `strengths` array of short items. -/
def embeddedObjText : String :=
  "\x7b\"strengths\": [\"a\", \"b\", \"c\"]\x7d"

/-- The same well-formed strengths object embedded after log noise. -/
def noisyJsonText : String :=
  "log noise \x7b\"strengths\": [\"a\", \"b\", \"c\"]\x7d"

/-- A well-formed strengths object with no surrounding noise. -/
def cleanJsonText : String :=
  "\x7b\"agent_name\": \"X\", \"strengths\": [\"a\", \"b\", \"c\"]\x7d"

/-- A six-item strengths list stored in a plain dict. -/
def sixItems : List String :=
  ["item 1", "item 2", "item 3", "item 4", "item 5", "item 6"]

/-- A single task whose dict stores an empty strengths list. -/
def emptyStrengthsTask : List PyVal :=
  [.pydict [("strengths", .pylist [])]]

/-- The aggregation result for `emptyStrengthsTask`: the empty
extraction fails the second check, so stage 0 gets its fallback. -/
def emptyStrengthsExpected : AnalysisResults :=
  { marketing_strengths := fallbackPy 0
    tech_strengths := .pylist []
    org_hr_strengths := .pylist []
    competitive_strengths := .pylist []
    finance_strengths := .pylist [] }

/-! ### Helper lemmas -/

theorem extract_after_strategy4_eq (s : String) (idx : Nat) :
    extract_after_strategy4 s idx =
      (match strategy5 s with
       | some items => PyVal.pylist (items.map .pystr)
       | none =>
         match strategy6 s with
         | some items => PyVal.pylist (items.map .pystr)
         | none => fallbackPy idx) := by
  unfold extract_after_strategy4 strategy5 strategy6
  cases AgentStrengthOutput.model_validate_json s with
  | some m => rfl
  | none =>
    cases searchR6Aux s.toList with
    | some inner =>
      by_cases h : (findallQuoted inner).length ≥ 3 <;> simp [h]
    | none => rfl

theorem extract_from_string_eq (s : String) (idx : Nat) :
    extract_from_string s idx =
      (match strategy4 s with
       | .ret v => v
       | .exn => fallbackPy idx
       | .cont => extract_after_strategy4 s idx) := by
  unfold extract_from_string strategy4
  by_cases hb : strippedStartsWithBrace s <;> simp only [hb, if_true, if_false]
  · cases searchR4 s with
    | some json_str =>
      dsimp only
      cases json_loads json_str with
      | some data =>
        dsimp only
        cases jsonToPy data with
        | pydict entries =>
          dsimp only
          cases dictLookup entries "strengths" <;> rfl
        | _ => rfl
      | none => rfl
    | none => rfl
  · rfl

/-- The extractor equals the spec's ordered strategy chain, with the
fallback substituted when no strategy returns (or strategy 4's parse
raises). -/
theorem extract_eq_chain (task_output : PyVal) (task_index : Nat) :
    extract_strengths_from_output task_output task_index =
      (strategyResult task_output).getD (fallbackPy task_index) := by
  have hstr : ∀ s i,
      extract_from_string s i =
        ((match strategy4 s with
          | .ret v => some v
          | .exn => none
          | .cont =>
            match strategy5 s with
            | some items => some (PyVal.pylist (items.map .pystr))
            | none =>
              match strategy6 s with
              | some items => some (PyVal.pylist (items.map .pystr))
              | none => none) : Option PyVal).getD (fallbackPy i) := by
    intro s i
    rw [extract_from_string_eq, extract_after_strategy4_eq]
    cases strategy4 s with
    | ret v => rfl
    | exn => rfl
    | cont =>
      cases strategy5 s with
      | some items => rfl
      | none => cases strategy6 s <;> rfl
  cases task_output with
  | model m => rfl
  | withPydanticAttr p render =>
    cases p with
    | model m => rfl
    | pydict entries =>
      cases h : dictLookup entries "strengths" with
      | some v =>
        simp [extract_strengths_from_output, strategyResult, strategy1, strategy2, h]
      | none =>
        simp only [extract_strengths_from_output, strategyResult, strategy1, strategy2,
          strategy3, h]
        exact hstr _ _
    | _ =>
      simp only [extract_strengths_from_output, strategyResult, strategy1, strategy2, strategy3]
      exact hstr _ _
  | pydict entries =>
    cases h : dictLookup entries "strengths" with
    | some v =>
      simp [extract_strengths_from_output, strategyResult, strategy1, strategy2, strategy3, h]
    | none =>
      cases h2 : dictLookup entries "pydantic" with
      | some p =>
        cases p with
        | pydict inner =>
          cases h3 : dictLookup inner "strengths" with
          | some v =>
            simp [extract_strengths_from_output, strategyResult, strategy1, strategy2,
              strategy3, h, h2, h3]
          | none =>
            simp only [extract_strengths_from_output, strategyResult, strategy1, strategy2,
              strategy3, h, h2, h3]
            exact hstr _ _
        | _ =>
          simp only [extract_strengths_from_output, strategyResult, strategy1, strategy2,
            strategy3, h, h2]
          exact hstr _ _
      | none =>
        simp only [extract_strengths_from_output, strategyResult, strategy1, strategy2,
          strategy3, h, h2]
        exact hstr _ _
  | _ =>
    simp only [extract_strengths_from_output, strategyResult, strategy1, strategy2, strategy3]
    exact hstr _ _

theorem task_result_mapping_length : task_result_mapping.length = 5 := rfl

theorem get_fallback_strengths_length (i : Nat) : (get_fallback_strengths i).length = 3 := by
  match i with
  | 0 => rfl
  | 1 => rfl
  | 2 => rfl
  | 3 => rfl
  | 4 => rfl
  | n + 5 => rfl

theorem resField_results_init (i : Nat) (h : i < 5) :
    resField results_init i = .pylist [] := by
  interval_cases i <;> rfl

theorem resField_assignField_self (r : AnalysisResults) (i : Nat) (v : PyVal) (h : i < 5) :
    resField (assignField r i v) i = v := by
  interval_cases i <;> rfl

theorem resField_assignField_ne (r : AnalysisResults) (i j : Nat) (v : PyVal) (h : i ≠ j) :
    resField (assignField r j v) i = resField r i := by
  rcases j with _|_|_|_|_|j <;> rcases i with _|_|_|_|_|i <;>
    first
      | rfl
      | exact absurd rfl h

theorem processTasksAux_ok_cons (r res : AnalysisResults) (idx : Nat) (t : PyVal)
    (rest : List PyVal) (hidx : idx < task_result_mapping.length)
    (hok : processTasksAux r idx (t :: rest) = .ok res) :
    processTasksAux
      (assignField r idx
        (if keepExtraction (extract_strengths_from_output t idx) then
          extract_strengths_from_output t idx
        else fallbackPy idx))
      (idx + 1) rest = .ok res := by
  rw [processTasksAux, if_neg (by omega)] at hok
  dsimp only at hok
  cases ht : pyTruthy (extract_strengths_from_output t idx) with
  | false =>
    rw [ht] at hok
    simp only [Bool.false_eq_true, if_false] at hok
    simpa [keepExtraction, ht] using hok
  | true =>
    rw [ht] at hok
    simp only [if_true] at hok
    cases hlen : pyLen (extract_strengths_from_output t idx) with
    | none => rw [hlen] at hok; cases hok
    | some n =>
      rw [hlen] at hok
      dsimp only at hok
      by_cases hn : n ≥ 3
      · rw [if_pos hn] at hok
        simpa [keepExtraction, ht, hlen, hn] using hok
      · rw [if_neg hn] at hok
        have : keepExtraction (extract_strengths_from_output t idx) = false := by
          simp [keepExtraction, ht, hlen]; omega
        simpa [this] using hok

theorem processTasksAux_spec :
    ∀ (ts : List PyVal) (idx : Nat) (r res : AnalysisResults),
      processTasksAux r idx ts = .ok res →
      ∀ i, i < task_result_mapping.length →
        ((i < idx ∨ idx + ts.length ≤ i) → resField res i = resField r i) ∧
        (∀ t0, idx ≤ i → ts.get? (i - idx) = some t0 →
          resField res i =
            (if keepExtraction (extract_strengths_from_output t0 i) then
              extract_strengths_from_output t0 i
            else fallbackPy i)) := by
  intro ts
  induction ts with
  | nil =>
    intro idx r res hok i hi
    rw [processTasksAux] at hok
    cases hok
    exact ⟨fun _ => rfl, fun t0 _ hget => by simp at hget⟩
  | cons t rest ih =>
    intro idx r res hok i hi
    rw [task_result_mapping_length] at hi
    by_cases hidx : idx ≥ task_result_mapping.length
    · rw [processTasksAux, if_pos hidx] at hok
      cases hok
      rw [task_result_mapping_length] at hidx
      exact ⟨fun _ => rfl, fun t0 hle _ => absurd hi (by omega)⟩
    · have hidxlt : idx < 5 := by
        rw [task_result_mapping_length] at hidx; omega
      have hstep := processTasksAux_ok_cons r res idx t rest
        (by rw [task_result_mapping_length]; omega) hok
      have ihspec := ih (idx + 1) _ res hstep i (by rw [task_result_mapping_length]; omega)
      constructor
      · intro hcase
        have hne : i ≠ idx := by
          rcases hcase with h | h
          · omega
          · simp only [List.length_cons] at h; omega
        have h1 : resField res i = resField (assignField r idx
            (if keepExtraction (extract_strengths_from_output t idx) then
              extract_strengths_from_output t idx
            else fallbackPy idx)) i := by
          apply ihspec.1
          rcases hcase with h | h
          · omega
          · right; simp only [List.length_cons] at h; omega
        rw [h1, resField_assignField_ne _ _ _ _ hne]
      · intro t0 hle hget
        by_cases heq : i = idx
        · subst heq
          rw [Nat.sub_self, List.get?_cons_zero] at hget
          cases hget
          have h1 : resField res i = resField (assignField r i
              (if keepExtraction (extract_strengths_from_output t i) then
                extract_strengths_from_output t i
              else fallbackPy i)) i := by
            apply ihspec.1
            omega
          rw [h1, resField_assignField_self _ _ _ hidxlt]
        · have hgt : idx + 1 ≤ i := by omega
          have hsub : i - idx = (i - (idx + 1)) + 1 := by omega
          rw [hsub, List.get?_cons_succ] at hget
          exact ihspec.2 t0 hgt hget

theorem model_validate_json_bounds (s : String) (m : AgentStrengthOutput)
    (h : AgentStrengthOutput.model_validate_json s = some m) :
    3 ≤ m.strengths.length ∧ m.strengths.length ≤ 5 := by
  unfold AgentStrengthOutput.model_validate_json at h
  repeat' split at h
  all_goals (cases h <;> assumption)

theorem strategy5_bounds (s : String) (items : List String) (h : strategy5 s = some items) :
    3 ≤ items.length ∧ items.length ≤ 5 := by
  unfold strategy5 at h
  cases hv : AgentStrengthOutput.model_validate_json s with
  | none => rw [hv] at h; cases h
  | some m =>
    rw [hv] at h
    cases h
    exact model_validate_json_bounds s m hv

theorem strategy6_bounds (s : String) (items : List String) (h : strategy6 s = some items) :
    3 ≤ items.length ∧ items.length ≤ 5 := by
  unfold strategy6 at h
  cases hs : searchR6Aux s.toList with
  | none => rw [hs] at h; cases h
  | some inner =>
    rw [hs] at h
    dsimp only at h
    by_cases hn : (findallQuoted inner).length ≥ 3
    · rw [if_pos hn] at h
      cases h
      rw [List.length_take]
      omega
    · rw [if_neg hn] at h
      cases h

theorem fallback_list_bounds (i : Nat) :
    3 ≤ (get_fallback_strengths i).length ∧ (get_fallback_strengths i).length ≤ 5 := by
  rw [get_fallback_strengths_length]
  omega

theorem extract_from_string_shape (s : String) (idx : Nat) :
    (∃ items : List String, extract_from_string s idx = .pylist (items.map .pystr) ∧
        3 ≤ items.length ∧ items.length ≤ 5) ∨
    (∃ v, strategy4 s = .ret v ∧ extract_from_string s idx = v) := by
  rw [extract_from_string_eq]
  cases h4 : strategy4 s with
  | ret v => right; exact ⟨v, rfl, rfl⟩
  | exn => exact Or.inl ⟨get_fallback_strengths idx, rfl, fallback_list_bounds idx⟩
  | cont =>
    rw [extract_after_strategy4_eq]
    cases h5 : strategy5 s with
    | some items => exact Or.inl ⟨items, rfl, strategy5_bounds s items h5⟩
    | none =>
      cases h6 : strategy6 s with
      | some items => exact Or.inl ⟨items, rfl, strategy6_bounds s items h6⟩
      | none => exact Or.inl ⟨get_fallback_strengths idx, rfl, fallback_list_bounds idx⟩

theorem retryWrites_congr (o1 o2 : Nat → AttemptOutcome) :
    ∀ (fuel attempt : Nat) (t : List JobRecord) (r : JobRecord) (s : List Nat),
      (∀ k, k < attempt + fuel → o2 k = o1 k) →
      retryWrites o2 fuel attempt t r s = retryWrites o1 fuel attempt t r s := by
  intro fuel
  induction fuel with
  | zero => intro attempt t r s h; rfl
  | succ fuel ih =>
    intro attempt t r s h
    simp only [retryWrites]
    rw [h attempt (by omega)]
    cases o1 attempt with
    | ok res => rfl
    | err msg =>
      dsimp only
      by_cases hc : (is_rate_limited msg && decide (attempt < max_retries - 1)) = true
      · rw [if_pos hc, if_pos hc]
        exact ih (attempt + 1) _ _ _ (fun k hk => h k (by omega))
      · rw [if_neg hc, if_neg hc]

theorem failWrites_getLast (t : List JobRecord) (r : JobRecord) (msg : String) :
    (failWrites t r msg).1.getLast? = some ((failWrites t r msg).2) := by
  unfold failWrites
  dsimp only
  rw [List.getLast?_concat]

/-- A record read back as `completed` can only have been produced by the
success path, so its `result` is the `.ok` output of `processTasks`. -/
theorem run_completed_has_results (outcomes : Nat → AttemptOutcome) (rec : JobRecord)
    (hfin : finalRecord outcomes = some rec) (hst : rec.status = "completed") :
    ∃ tasks res, processTasks tasks = .ok res ∧ rec.result = some res := by
  unfold finalRecord run_analysis at hfin
  dsimp only at hfin
  generalize hrw : retryWrites outcomes max_retries 0 _ _ [] = x at hfin
  obtain ⟨t3, r3, sleeps, e⟩ := x
  dsimp only at hfin
  cases e with
  | error msg =>
    rw [run_analysis_post, failWrites_getLast] at hfin
    cases hfin
    exact absurd hst (by simp [failWrites])
  | ok res =>
    cases res with
    | none =>
      rw [run_analysis_post] at hfin
      dsimp only at hfin
      rw [failWrites_getLast] at hfin
      cases hfin
      exact absurd hst (by simp [failWrites])
    | some crew =>
      rw [run_analysis_post] at hfin
      dsimp only at hfin
      cases hpt : processTasks (match crew.tasks_output with | some l => l | none => []) with
      | error msg =>
        rw [hpt] at hfin
        dsimp only at hfin
        rw [failWrites_getLast] at hfin
        cases hfin
        exact absurd hst (by simp [failWrites])
      | ok results =>
        rw [hpt] at hfin
        dsimp only at hfin
        rw [List.getLast?_concat] at hfin
        cases hfin
        exact ⟨_, results, hpt, rfl⟩

theorem run_analysis_post_sleeps (t3 : List JobRecord) (r3 : JobRecord) (sleeps : List Nat)
    (e : Except String (Option CrewResultObj)) :
    (run_analysis_post t3 r3 sleeps e).2 = sleeps := by
  unfold run_analysis_post
  cases e with
  | error msg => rfl
  | ok res =>
    cases res with
    | none => rfl
    | some crew =>
      dsimp only
      cases processTasks (match crew.tasks_output with | some l => l | none => []) <;> rfl

theorem run_analysis_post_error (t3 : List JobRecord) (r3 : JobRecord) (sleeps : List Nat)
    (msg : String) :
    (run_analysis_post t3 r3 sleeps (.error msg)).1.getLast? =
      some { status := "failed", progress := "Analysis failed", result := r3.result,
             error := some msg, completed_at := r3.completed_at } := by
  unfold run_analysis_post
  rw [failWrites_getLast]
  rfl

theorem retryWrites_two_rl (o : Nat → AttemptOutcome) (m0 m1 : String) (t : List JobRecord)
    (r : JobRecord)
    (h0 : o 0 = .err m0) (hr0 : is_rate_limited m0 = true)
    (h1 : o 1 = .err m1) (hr1 : is_rate_limited m1 = true) :
    retryWrites o max_retries 0 t r [] =
      (((((t ++ [{ r with progress := "Running agents (5 agents, ~1 min total)..." }]) ++
            [{ r with progress := "Rate limit hit, waiting 30s..." }]) ++
            [{ r with progress := "Running agents (5 agents, ~1 min total)..." }]) ++
            [{ r with progress := "Rate limit hit, waiting 60s..." }]) ++
            [{ r with progress := "Running agents (5 agents, ~1 min total)..." }],
       { r with progress := "Running agents (5 agents, ~1 min total)..." },
       [30, 60],
       match o 2 with
       | .ok res => Except.ok res
       | .err msg => Except.error msg) := by
  cases ho2 : o 2 with
  | ok res =>
    simp [retryWrites, max_retries, h0, h1, hr0, hr1, ho2]
    exact ⟨rfl, rfl⟩
  | err m2 =>
    simp [retryWrites, max_retries, h0, h1, hr0, hr1, ho2]
    exact ⟨rfl, rfl⟩

theorem pylist_map_pystr_inj (l1 l2 : List String)
    (h : PyVal.pylist (l1.map .pystr) = PyVal.pylist (l2.map .pystr)) : l1 = l2 := by
  injection h with h
  exact List.map_injective_iff.mpr (fun a b hab => by injection hab) h

/-! ### The claims -/

/-- C1, corrected: after a rate-limited failure of (1-based) attempt k,
the loop sleeps 15 * 2^k time units before attempt k+1 — concretely 30
and then 60 before attempts 2 and 3, not 15 and 30; when the third
attempt also fails, that failure is terminal: the record ends failed
with the message and the run depends on nothing past the first three
attempt outcomes (no fourth attempt, no further sleep). -/
theorem c1_backoff_schedule_amended (outcomes outcomes2 : Nat → AttemptOutcome)
    (m0 m1 : String)
    (h0 : outcomes 0 = .err m0) (hr0 : is_rate_limited m0 = true)
    (h1 : outcomes 1 = .err m1) (hr1 : is_rate_limited m1 = true) :
    (run_analysis outcomes).2 = [30, 60] ∧
    (∀ m2, outcomes 2 = .err m2 → is_rate_limited m2 = true →
      ∃ rec, finalRecord outcomes = some rec ∧ rec.status = "failed" ∧
        rec.error = some m2) ∧
    ((∀ k, k < max_retries → outcomes2 k = outcomes k) →
      run_analysis outcomes2 = run_analysis outcomes) := by
  refine ⟨?_, ?_, ?_⟩
  · unfold run_analysis
    dsimp only
    rw [retryWrites_two_rl outcomes m0 m1 _ _ h0 hr0 h1 hr1]
    dsimp only
    rw [run_analysis_post_sleeps]
  · intro m2 ho2 _
    unfold finalRecord run_analysis
    dsimp only
    rw [retryWrites_two_rl outcomes m0 m1 _ _ h0 hr0 h1 hr1]
    dsimp only
    rw [ho2]
    dsimp only
    exact ⟨_, run_analysis_post_error _ _ _ _, rfl, rfl⟩
  · intro hagree
    unfold run_analysis
    dsimp only
    rw [retryWrites_congr outcomes outcomes2 max_retries 0 _ _ _
      (fun k hk => hagree k (by omega))]

/-- C1 counterexample: when the first two attempts fail rate-limited,
the sleeps actually performed are 30 and 60 time units — not the 15
and 30 the claim names for attempts 2 and 3. -/
theorem c1_backoff_schedule_counterexample :
    (run_analysis allRateLimited).2 = [30, 60] ∧
    (run_analysis allRateLimited).2 ≠ [15, 30] := by
  refine ⟨rfl, ?_⟩
  intro h
  rw [show (run_analysis allRateLimited).2 = [30, 60] from rfl] at h
  exact absurd h (by decide)

/-- C1 witness: the amended schedule at the all-rate-limited run. -/
theorem c1_backoff_schedule_witness :
    (run_analysis allRateLimited).2 = [30, 60] ∧
    ∃ rec, finalRecord allRateLimited = some rec ∧ rec.status = "failed" ∧
      rec.error = some "429 Too Many Requests (rate_limit)" := by
  have h := c1_backoff_schedule_amended allRateLimited allRateLimited
    "429 Too Many Requests (rate_limit)" "429 Too Many Requests (rate_limit)"
    rfl rfl rfl rfl
  exact ⟨h.1, h.2.1 _ rfl rfl⟩

/-- C2 counterexample: a dict storing an empty strengths list is passed
through verbatim, so the extractor returns a 0-item list — not a list
of 3 to 5 strings as the claim states for every raw input. -/
theorem c2_total_shape_counterexample :
    extract_strengths_from_output (.pydict [("strengths", .pylist [])]) 0 = .pylist [] ∧
    ¬ ∃ items : List String,
        extract_strengths_from_output (.pydict [("strengths", .pylist [])]) 0 =
          .pylist (items.map .pystr) ∧ 3 ≤ items.length ∧ items.length ≤ 5 := by
  refine ⟨rfl, ?_⟩
  rintro ⟨items, heq, h3, _⟩
  rw [show extract_strengths_from_output (.pydict [("strengths", .pylist [])]) 0 =
    .pylist [] from rfl] at heq
  injection heq with h
  have hlen := congrArg List.length h
  rw [List.length_map] at hlen
  simp at hlen
  omega

/-- C2, amended: extraction never raises and always returns; the result
is a list of 3-5 strings except when it is a value read verbatim out of
the raw input by the passthrough of strategies 2-4 (a dict member or a
parsed JSON member, of any shape and length).  Model instances reached
by strategies 1-2 carry pydantic's 3-5 item bound as a hypothesis,
since pydantic validates it at construction. -/
theorem c2_total_shape_amended (task_output : PyVal) (task_index : Nat)
    (hm : ∀ m, task_output = .model m → 3 ≤ m.strengths.length ∧ m.strengths.length ≤ 5)
    (hm2 : ∀ m render, task_output = .withPydanticAttr (.model m) render →
      3 ≤ m.strengths.length ∧ m.strengths.length ≤ 5) :
    (∃ items : List String,
        extract_strengths_from_output task_output task_index = .pylist (items.map .pystr) ∧
        3 ≤ items.length ∧ items.length ≤ 5) ∨
    (∃ v, storedPassthrough task_output v ∧
        extract_strengths_from_output task_output task_index = v) := by
  have hstr : ∀ (w : PyVal),
      extract_strengths_from_output w task_index =
        extract_from_string (pyToStr w) task_index →
      (∃ items : List String,
          extract_strengths_from_output w task_index = .pylist (items.map .pystr) ∧
          3 ≤ items.length ∧ items.length ≤ 5) ∨
      (∃ v, storedPassthrough w v ∧ extract_strengths_from_output w task_index = v) := by
    intro w hw
    rw [hw]
    rcases extract_from_string_shape (pyToStr w) task_index with ⟨items, he, hb⟩ | ⟨v, h4, he⟩
    · exact Or.inl ⟨items, he, hb⟩
    · exact Or.inr ⟨v, Or.inr (Or.inr h4), he⟩
  cases task_output with
  | model m => exact Or.inl ⟨m.strengths, rfl, hm m rfl⟩
  | withPydanticAttr p render =>
    cases p with
    | model m => exact Or.inl ⟨m.strengths, rfl, hm2 m render rfl⟩
    | pydict entries =>
      cases hl : dictLookup entries "strengths" with
      | some v =>
        refine Or.inr ⟨v, Or.inl ⟨entries, render, rfl, hl⟩, ?_⟩
        simp only [extract_strengths_from_output, hl]
      | none =>
        apply hstr
        simp only [extract_strengths_from_output, hl]
    | pystr s => exact hstr _ rfl
    | pylist l => exact hstr _ rfl
    | pyint n => exact hstr _ rfl
    | pybool b => exact hstr _ rfl
    | pyfloat lx => exact hstr _ rfl
    | pynone => exact hstr _ rfl
    | withPydanticAttr q render2 => exact hstr _ rfl
  | pydict entries =>
    cases hl : dictLookup entries "strengths" with
    | some v =>
      refine Or.inr ⟨v, Or.inr (Or.inl ⟨entries, rfl, Or.inl hl⟩), ?_⟩
      simp only [extract_strengths_from_output, hl]
    | none =>
      cases hp : dictLookup entries "pydantic" with
      | some pv =>
        cases pv with
        | pydict inner =>
          cases hi : dictLookup inner "strengths" with
          | some v =>
            refine Or.inr ⟨v, Or.inr (Or.inl ⟨entries, rfl, Or.inr ⟨hl, inner, hp, hi⟩⟩), ?_⟩
            simp only [extract_strengths_from_output, hl, hp, hi]
          | none =>
            apply hstr
            simp only [extract_strengths_from_output, hl, hp, hi]
        | model m => apply hstr; simp only [extract_strengths_from_output, hl, hp]
        | withPydanticAttr q r2 => apply hstr; simp only [extract_strengths_from_output, hl, hp]
        | pystr s => apply hstr; simp only [extract_strengths_from_output, hl, hp]
        | pylist l => apply hstr; simp only [extract_strengths_from_output, hl, hp]
        | pyint n => apply hstr; simp only [extract_strengths_from_output, hl, hp]
        | pybool b => apply hstr; simp only [extract_strengths_from_output, hl, hp]
        | pyfloat lx => apply hstr; simp only [extract_strengths_from_output, hl, hp]
        | pynone => apply hstr; simp only [extract_strengths_from_output, hl, hp]
      | none =>
        apply hstr
        simp only [extract_strengths_from_output, hl, hp]
  | pystr s => exact hstr _ rfl
  | pylist l => exact hstr _ rfl
  | pyint n => exact hstr _ rfl
  | pybool b => exact hstr _ rfl
  | pyfloat lx => exact hstr _ rfl
  | pynone => exact hstr _ rfl

/-- C2 witness: the amended shape at a free-text raw value (fallback
path, three strings). -/
theorem c2_total_shape_witness :
    (∃ items : List String,
        extract_strengths_from_output (.pystr "no structure here") 0 =
          .pylist (items.map .pystr) ∧ 3 ≤ items.length ∧ items.length ≤ 5) ∨
    (∃ v, storedPassthrough (.pystr "no structure here") v ∧
        extract_strengths_from_output (.pystr "no structure here") 0 = v) :=
  c2_total_shape_amended (.pystr "no structure here") 0
    (fun _ h => PyVal.noConfusion h) (fun _ _ h => PyVal.noConfusion h)

/-- C3 counterexample: a six-item stored strengths list is returned
with all six items — the dict passthrough does not truncate to 5, so
the claimed truncation rule fails. -/
theorem c3_first_wins_counterexample :
    extract_strengths_from_output (.pydict [("strengths", .pylist (sixItems.map .pystr))]) 1 =
      .pylist (sixItems.map .pystr) ∧
    (sixItems.map PyVal.pystr).length = 6 := ⟨rfl, rfl⟩

/-- C3, amended: strategies are tried in the fixed order 1-6 and the
first one that returns wins, with no merging of outputs — but a
strategy wins whenever it applies, regardless of item count (only
strategy 6 requires 3 items and truncates to 5), and a strategy-4
parse exception goes straight to the fallback. -/
theorem c3_strategy_order_amended (task_output : PyVal) (task_index : Nat) :
    extract_strengths_from_output task_output task_index =
      (strategyResult task_output).getD (fallbackPy task_index) :=
  extract_eq_chain task_output task_index

/-- C4 counterexample: a run whose kickoff succeeds with zero task
outputs still completes, and its result's first field is the empty
list — length 0, not in [3,5]. -/
theorem c4_completed_shape_counterexample :
    (∃ rec, finalRecord emptyTasksRun = some rec ∧ rec.status = "completed" ∧
      rec.result = some results_init) ∧
    pyLen (resField results_init 0) = some 0 ∧ ¬ 3 ≤ (0 : Nat) := by
  exact ⟨⟨_, rfl, rfl, rfl⟩, rfl, by omega⟩

/-- C4, amended: a completed job's result still has exactly the five
named fields, but each field is either left as the initial empty list
(when fewer than five task outputs exist), the complete 3-item canned
fallback for its index, or a kept extraction, which is only guaranteed
truthy of `len` at least 3 — not at most 5, not made of strings, and
with no per-string length floor. -/
theorem c4_completed_shape_amended (outcomes : Nat → AttemptOutcome) (rec : JobRecord)
    (res : AnalysisResults) (i : Nat)
    (hfin : finalRecord outcomes = some rec) (hst : rec.status = "completed")
    (hres : rec.result = some res) (hi : i < 5) :
    resField res i = .pylist [] ∨
    (resField res i = fallbackPy i ∧ (get_fallback_strengths i).length = 3) ∨
    (∃ n, pyLen (resField res i) = some n ∧ 3 ≤ n) := by
  obtain ⟨tasks, res0, hok, hr0⟩ := run_completed_has_results outcomes rec hfin hst
  rw [hres] at hr0
  injection hr0 with hr0
  subst hr0
  have hspec := processTasksAux_spec tasks 0 results_init res hok i
    (by rw [task_result_mapping_length]; omega)
  cases hget : tasks.get? i with
  | none =>
    left
    have hlen := List.get?_eq_none.mp hget
    have h1 := hspec.1 (Or.inr (by omega))
    rw [h1, resField_results_init i hi]
  | some t0 =>
    have h2 := hspec.2 t0 (by omega) (by simpa using hget)
    by_cases hk : keepExtraction (extract_strengths_from_output t0 i) = true
    · right; right
      rw [h2, if_pos hk]
      unfold keepExtraction at hk
      simp only [Bool.and_eq_true] at hk
      obtain ⟨-, hm⟩ := hk
      cases hlen : pyLen (extract_strengths_from_output t0 i) with
      | none => rw [hlen] at hm; cases hm
      | some n =>
        rw [hlen] at hm
        dsimp only at hm
        exact ⟨n, rfl, of_decide_eq_true hm⟩
    · right; left
      rw [h2, if_neg hk]
      exact ⟨rfl, get_fallback_strengths_length i⟩

/-- C4 witness: the amended shape at the zero-task completed run. -/
theorem c4_completed_shape_witness :
    resField results_init 0 = .pylist [] ∨
    (resField results_init 0 = fallbackPy 0 ∧ (get_fallback_strengths 0).length = 3) ∨
    (∃ n, pyLen (resField results_init 0) = some n ∧ 3 ≤ n) :=
  c4_completed_shape_amended emptyTasksRun
    { status := "completed", progress := "Analysis complete!", result := some results_init,
      error := none, completed_at := true }
    results_init 0 rfl rfl rfl (by omega)

/-- C5 counterexample: on raw text whose rendering starts with a brace
and matches the strategy-4 pattern but fails to parse, the exception
skips strategies 5 and 6 and yields the fallback — even though strategy
6 would have extracted three 20-character items. -/
theorem c5_exception_flow_counterexample :
    extract_strengths_from_output (.pystr s4exnText) 0 = fallbackPy 0 ∧
    strategy4 s4exnText = .exn ∧
    strategy6 s4exnText =
      some ["aaaaaaaaaaaaaaaaaaaa", "bbbbbbbbbbbbbbbbbbbb", "cccccccccccccccccccc"] ∧
    get_fallback_strengths 0 ≠
      ["aaaaaaaaaaaaaaaaaaaa", "bbbbbbbbbbbbbbbbbbbb", "cccccccccccccccccccc"] :=
  ⟨rfl, rfl, rfl, by decide⟩

/-- C5, amended: when strategies 1-3 do not apply, an exception inside
strategy 4's parse is caught by the function-level handler and yields
the fallback immediately, skipping strategies 5 and 6; an exception
inside strategy 5's validation is caught locally and strategy 6 is
still attempted; extraction never propagates an exception. -/
theorem c5_exception_flow_amended (task_output : PyVal) (task_index : Nat)
    (h1 : strategy1 task_output = none) (h2 : strategy2 task_output = none)
    (h3 : strategy3 task_output = none) :
    (strategy4 (pyToStr task_output) = .exn →
      extract_strengths_from_output task_output task_index = fallbackPy task_index) ∧
    (strategy4 (pyToStr task_output) = .cont → strategy5 (pyToStr task_output) = none →
      extract_strengths_from_output task_output task_index =
        (match strategy6 (pyToStr task_output) with
         | some items => PyVal.pylist (items.map .pystr)
         | none => fallbackPy task_index)) := by
  constructor
  · intro h4
    rw [extract_eq_chain]
    unfold strategyResult
    rw [h1, h2, h3]
    dsimp only
    rw [h4]
    rfl
  · intro h4 h5
    rw [extract_eq_chain]
    unfold strategyResult
    rw [h1, h2, h3]
    dsimp only
    rw [h4]
    dsimp only
    rw [h5]
    dsimp only
    cases strategy6 (pyToStr task_output) <;> rfl

/-- C5 witness: the strategy-4 exception path at the malformed text and
the strategy-5-to-6 fallthrough at plain text. -/
theorem c5_exception_flow_witness :
    extract_strengths_from_output (.pystr s4exnText) 3 = fallbackPy 3 ∧
    extract_strengths_from_output (.pystr "no json here") 1 = fallbackPy 1 := by
  constructor
  · exact (c5_exception_flow_amended (.pystr s4exnText) 3 rfl rfl rfl).1 rfl
  · exact ((c5_exception_flow_amended (.pystr "no json here") 1 rfl rfl rfl).2 rfl rfl).trans rfl

/-- C6, code bug: on a successful run the code writes status
"completed" one store update before it writes the result, so after
that write (trace index 4) a reader sees status completed with a null
result; only the final record carries the result. -/
theorem c6_half_written_record :
    ((run_analysis emptyTasksRun).1.get? 4).map (fun r => (r.status, r.result)) =
      some ("completed", none) ∧
    (finalRecord emptyTasksRun).map (fun r => (r.status, r.result.isSome)) =
      some ("completed", true) := ⟨rfl, rfl⟩

/-- C7, confirmed: for a stage index below 5 with a present task
output, the recorded field is either exactly the extraction or exactly
the canned fallback for that index (never a mix), and whenever the
extraction is falsy (missing or empty) or has fewer than 3 items, it
is the complete canned fallback for exactly that index. -/
theorem c7_second_check (tasks_output : List PyVal) (idx : Nat) (res : AnalysisResults)
    (t0 : PyVal)
    (hok : processTasks tasks_output = .ok res) (hidx : idx < 5)
    (hget : tasks_output.get? idx = some t0) :
    (resField res idx = extract_strengths_from_output t0 idx ∨
      resField res idx = fallbackPy idx) ∧
    ((pyTruthy (extract_strengths_from_output t0 idx) = false ∨
      (∃ n, pyLen (extract_strengths_from_output t0 idx) = some n ∧ n < 3)) →
      resField res idx = fallbackPy idx) := by
  have hspec := processTasksAux_spec tasks_output 0 results_init res hok idx
    (by rw [task_result_mapping_length]; omega)
  have h2 := hspec.2 t0 (by omega) (by simpa using hget)
  constructor
  · by_cases hk : keepExtraction (extract_strengths_from_output t0 idx) = true
    · left; rw [h2, if_pos hk]
    · right; rw [h2, if_neg hk]
  · intro hshort
    have hk : keepExtraction (extract_strengths_from_output t0 idx) = false := by
      rcases hshort with hf | ⟨n, hlen, hn⟩
      · unfold keepExtraction
        rw [hf, Bool.false_and]
      · unfold keepExtraction
        rw [hlen]
        dsimp only
        have hd : decide (3 ≤ n) = false := decide_eq_false (by omega)
        rw [hd, Bool.and_false]
    rw [h2, if_neg (by rw [hk]; exact Bool.false_ne_true)]

/-- C7 witness: an empty stored strengths list at stage 0 is replaced
by the complete stage-0 fallback. -/
theorem c7_second_check_witness :
    processTasks emptyStrengthsTask = .ok emptyStrengthsExpected ∧
    resField emptyStrengthsExpected 0 = fallbackPy 0 := by
  refine ⟨rfl, ?_⟩
  exact (c7_second_check emptyStrengthsTask 0 emptyStrengthsExpected
    (.pydict [("strengths", .pylist [])]) rfl (by omega) rfl).2 (Or.inl rfl)

/-- C8 counterexample: the rendering contains a parseable brace-delimited
object whose strengths array is ["a","b","c"], but because log noise
precedes the opening brace, strategy 4 never runs and extraction falls
back to the canned list, which is not that array. -/
theorem c8_embedded_json_counterexample :
    noisyJsonText = "log noise " ++ embeddedObjText ∧
    (∃ jv, json_loads embeddedObjText = some jv ∧
      jsonToPy jv = .pydict [("strengths", .pylist (["a", "b", "c"].map .pystr))]) ∧
    strategy1 (.pystr noisyJsonText) = none ∧
    strategy2 (.pystr noisyJsonText) = none ∧
    strategy3 (.pystr noisyJsonText) = none ∧
    extract_strengths_from_output (.pystr noisyJsonText) 0 = fallbackPy 0 ∧
    fallbackPy 0 ≠ .pylist (["a", "b", "c"].map .pystr) := by
  refine ⟨rfl, ⟨_, rfl, rfl⟩, rfl, rfl, rfl, rfl, fun h => ?_⟩
  exact absurd (pylist_map_pystr_inj _ _ h) (by decide)

/-- C8, amended: for every raw value on which strategies 1-3 do not
apply, whose textual rendering has the opening brace as its first
non-whitespace character, and on which the strategy-4 regex search
finds a brace-delimited substring that parses as a JSON object with a
`strengths` member, extraction returns exactly that member.  An object
embedded after log noise preceding the opening brace never reaches
this path, because strategy 4 first tests
`output_str.strip().startswith` of the brace. -/
theorem c8_embedded_json_amended (task_output : PyVal) (task_index : Nat)
    (json_str : String) (data : JVal) (entries : List (String × PyVal)) (v : PyVal)
    (h1 : strategy1 task_output = none) (h2 : strategy2 task_output = none)
    (h3 : strategy3 task_output = none)
    (hbrace : strippedStartsWithBrace (pyToStr task_output) = true)
    (hsearch : searchR4 (pyToStr task_output) = some json_str)
    (hparse : json_loads json_str = some data)
    (hdict : jsonToPy data = .pydict entries)
    (hmem : dictLookup entries "strengths" = some v) :
    extract_strengths_from_output task_output task_index = v := by
  have h4 : strategy4 (pyToStr task_output) = .ret v := by
    unfold strategy4
    rw [if_pos hbrace, hsearch]
    dsimp only
    rw [hparse]
    dsimp only
    rw [hdict]
    dsimp only
    rw [hmem]
  rw [extract_eq_chain]
  unfold strategyResult
  rw [h1, h2, h3]
  dsimp only
  rw [h4]
  rfl

/-- C8 witness: on a noise-free rendering the regex search matches the
whole object, it parses with a strengths member of three short items,
and extraction returns exactly that member. -/
theorem c8_embedded_json_witness :
    extract_strengths_from_output (.pystr cleanJsonText) 2 =
      .pylist (["a", "b", "c"].map .pystr) :=
  c8_embedded_json_amended (.pystr cleanJsonText) 2 cleanJsonText
    (.jobj [("agent_name", .jstr "X"), ("strengths", .jarr [.jstr "a", .jstr "b", .jstr "c"])])
    [("agent_name", .pystr "X"), ("strengths", .pylist (["a", "b", "c"].map .pystr))]
    (.pylist (["a", "b", "c"].map .pystr))
    rfl rfl rfl rfl rfl rfl rfl rfl

/-- C9, confirmed: when any of strategies 1-6 returns (the chain result
is not the fallback), the returned value does not depend on the stage
index, so two runs at different indices agree. -/
theorem c9_stage_index_noninterference (task_output : PyVal) (v : PyVal) (i j : Nat)
    (h : strategyResult task_output = some v) :
    extract_strengths_from_output task_output i =
      extract_strengths_from_output task_output j := by
  rw [extract_eq_chain, extract_eq_chain, h]
  rfl

/-- C9 witness: stage indices 0 and 4 agree on a JSON raw text. -/
theorem c9_stage_index_noninterference_witness :
    extract_strengths_from_output (.pystr cleanJsonText) 0 =
      extract_strengths_from_output (.pystr cleanJsonText) 4 :=
  c9_stage_index_noninterference (.pystr cleanJsonText)
    (.pylist (["a", "b", "c"].map .pystr)) 0 4 rfl

/-- C10, confirmed: a plain dict containing a `strengths` key has that
value returned exactly as stored, with no validation at all. -/
theorem c10_dict_passthrough (entries : List (String × PyVal)) (task_index : Nat) (v : PyVal)
    (h : dictLookup entries "strengths" = some v) :
    extract_strengths_from_output (.pydict entries) task_index = v := by
  simp only [extract_strengths_from_output, h]

/-- C10 witness: even a stored int is returned as the "strengths". -/
theorem c10_dict_passthrough_witness :
    extract_strengths_from_output (.pydict [("strengths", .pyint 7)]) 0 = .pyint 7 :=
  c10_dict_passthrough [("strengths", .pyint 7)] 0 (.pyint 7) rfl

end BoardPanel
